import Mathlib

/-!
Verification of the ChefDanaher concurrent state-synchronization layer.

The embedding follows the TypeScript sources:
* `netlify/functions/utils/blobs.ts` — versioned document store and the
  optimistic concurrency gate (`getState`, `saveState`, `checkVersionAndSave`);
* the state endpoint handler (PUT branch) that wraps `checkVersionAndSave`
  in HTTP responses (200 on success, 409 with the authoritative state on
  version conflict);
* the client mutation queue `saveWithRetry` and the document operations
  (`removeRecipe`, `swapRecipes`, `toggleGroceriesPurchased`, ...) from the
  React `AppContext` provider.

The remote blob store is modelled as an `Option AppState` (`none` covers both
"no document stored yet" and "the read failed", which the source swallows into
the same default-returning path).  Asynchronous API calls made by the client
are modelled by an oracle: a list of `ApiResult` responses consumed in order,
one per `await api.saveState(...)`.
-/

namespace ChefDanaher

/-- `AppSettings` from `src/types/index.ts`: two integer decay thresholds. -/
structure AppSettings where
  recipeDecayDays : Int
  suggestedRecipeDecayDays : Int
deriving Repr, DecidableEq

/-- A recipe as the sync layer sees it (`src/types/index.ts`): a stable `id`,
the optional `lastUsedAt` date stamp, the `isFavorite` flag, and the remaining
descriptive/ingredient/step fields, which the sync layer never inspects and
which are collapsed into one opaque `payload` field. -/
structure Recipe where
  id : String
  lastUsedAt : Option String
  isFavorite : Bool
  payload : String
deriving Repr, DecidableEq

/-- `DayPlan` from `src/types/index.ts`: a calendar date, a nullable recipe
reference, and the optional `groceriesPurchased` flag (`none` models the field
being absent on the JS object, which JS truthiness treats like `false`). -/
structure DayPlan where
  date : String
  recipeId : Option String
  groceriesPurchased : Option Bool
deriving Repr, DecidableEq

/-- The single synchronized document (`AppState` in the sources).  `settings`
is `Option` because legacy stored documents may lack the field — the server
type in `blobs.ts` does not even declare it, and the client repairs it with
`ensureStateComplete`. -/
structure AppState where
  recipes : List Recipe
  calendar : List DayPlan
  settings : Option AppSettings
  version : Nat
deriving Repr, DecidableEq

/-- `defaultSettings` from the `AppContext` provider. -/
def defaultSettings : AppSettings :=
  { recipeDecayDays := 60, suggestedRecipeDecayDays := 30 }

/-- The hard-coded default document `getState` returns when nothing is stored
or the read fails (`blobs.ts` lines 28–33); it carries no `settings` field. -/
def defaultServerState : AppState :=
  { recipes := [], calendar := [], settings := none, version := 0 }

/-- `getState` from `blobs.ts`: return the stored document; if none exists
(or the read failed, which the source catches and falls through), return the
hard-coded default with version 0.  The store is `Option AppState`, `none`
standing for "no readable document". -/
def getState (store : Option AppState) : AppState :=
  match store with
  | some s => s
  | none => defaultServerState

/-- Result shape of `checkVersionAndSave`: `{ success: boolean; state: AppState }`. -/
structure SaveResult where
  success : Bool
  state : AppState
deriving Repr, DecidableEq

/-- `checkVersionAndSave` from `blobs.ts`: read the current document; if its
version differs from `expectedVersion`, reject and return the current document
(without writing); otherwise persist `newState` with `version :=
expectedVersion + 1` and return it as accepted.  Returns the result paired
with the store after the call. -/
def checkVersionAndSave (store : Option AppState) (newState : AppState)
    (expectedVersion : Nat) : SaveResult × Option AppState :=
  let currentState := getState store
  if currentState.version ≠ expectedVersion then
    ({ success := false, state := currentState }, store)
  else
    let updatedState := { newState with version := expectedVersion + 1 }
    ({ success := true, state := updatedState }, some updatedState)

/-- The HTTP response of the state endpoint's PUT branch: status 200 with
`{ state, version }` on success, status 409 with `{ error, state }` on a
version conflict. -/
inductive PutResponse where
  | success (state : AppState) (version : Nat)
  | conflict (state : AppState)
deriving Repr, DecidableEq

/-- HTTP status code carried by each `PutResponse` constructor. -/
def PutResponse.status : PutResponse → Nat
  | .success _ _ => 200
  | .conflict _ => 409

/-- The document in the response body (`state` field of either body shape). -/
def PutResponse.bodyState : PutResponse → AppState
  | .success s _ => s
  | .conflict s => s

/-- The PUT branch of the state endpoint handler: run `checkVersionAndSave`
and wrap the outcome in the HTTP response; the store after the call is
returned alongside. -/
def handlePut (store : Option AppState) (state : AppState) (version : Nat) :
    PutResponse × Option AppState :=
  let out := checkVersionAndSave store state version
  if out.1.success then
    (.success out.1.state out.1.state.version, out.2)
  else
    (.conflict out.1.state, out.2)

/-- Run a sequence of gate submissions `(proposedDoc, expectedVersion)`
against the store, threading the store through. -/
def runSubmits (store : Option AppState) : List (AppState × Nat) → Option AppState
  | [] => store
  | (doc, v) :: rest => runSubmits (checkVersionAndSave store doc v).2 rest

/-- Number of submissions in the sequence that the gate accepts. -/
def countAccepted (store : Option AppState) : List (AppState × Nat) → Nat
  | [] => 0
  | (doc, v) :: rest =>
    let out := checkVersionAndSave store doc v
    (if out.1.success then 1 else 0) + countAccepted out.2 rest

/-- `ensureStateComplete` from the `AppContext` provider: substitute the
hard-coded default settings when the loaded document lacks them. -/
def ensureStateComplete (state : AppState) : AppState :=
  { state with settings := some (state.settings.getD defaultSettings) }

end ChefDanaher

namespace ChefDanaher

/-- When the expected version matches the stored one, `checkVersionAndSave`
accepts: it persists the proposal with the version bumped by one. -/
theorem checkVersionAndSave_accept (store : Option AppState) (doc : AppState) (v : Nat)
    (hv : (getState store).version = v) :
    checkVersionAndSave store doc v
      = ({ success := true, state := { doc with version := v + 1 } },
          some { doc with version := v + 1 }) := by
  unfold checkVersionAndSave
  simp [hv]

/-- When the expected version does not match the stored one,
`checkVersionAndSave` rejects, returning the current document and leaving the
store untouched. -/
theorem checkVersionAndSave_reject (store : Option AppState) (doc : AppState) (v : Nat)
    (hv : (getState store).version ≠ v) :
    checkVersionAndSave store doc v
      = ({ success := false, state := getState store }, store) := by
  unfold checkVersionAndSave
  simp [hv]

/-- Over a sequence of submissions the stored version grows by exactly the
number of accepted writes. -/
theorem runSubmits_version (reqs : List (AppState × Nat)) :
    ∀ store : Option AppState,
      (getState (runSubmits store reqs)).version
        = (getState store).version + countAccepted store reqs := by
  induction reqs with
  | nil => intro store; simp [runSubmits, countAccepted]
  | cons hd tl ih =>
    intro store
    obtain ⟨doc, v⟩ := hd
    show (getState (runSubmits (checkVersionAndSave store doc v).2 tl)).version
      = (getState store).version
        + ((if (checkVersionAndSave store doc v).1.success then 1 else 0)
            + countAccepted (checkVersionAndSave store doc v).2 tl)
    by_cases hv : (getState store).version = v
    · rw [checkVersionAndSave_accept store doc v hv, ih, hv]
      simp [getState]
      omega
    · rw [checkVersionAndSave_reject store doc v hv, ih]
      simp

/-- A concrete document used to exercise the theorems on closed inputs. -/
def sampleDoc : AppState :=
  { recipes := [{ id := "r1", lastUsedAt := none, isFavorite := false, payload := "soup" }]
    calendar := []
    settings := some defaultSettings
    version := 0 }

/-- **C1.** The gate's submit (`checkVersionAndSave`) rejects and returns the
current stored document when the stored version differs from
`expectedVersion`; when they are equal it persists the proposal with version
`expectedVersion + 1` and returns it as accepted — so every accepted write has
result version strictly above its base version, and over any sequence of
submissions the stored version grows by exactly one per accepted write. -/
theorem gate_submit_spec (store : Option AppState) (doc : AppState) (v : Nat) :
    ((getState store).version ≠ v →
        checkVersionAndSave store doc v
          = ({ success := false, state := getState store }, store)) ∧
    ((getState store).version = v →
        checkVersionAndSave store doc v
          = ({ success := true, state := { doc with version := v + 1 } },
              some { doc with version := v + 1 })) ∧
    ((checkVersionAndSave store doc v).1.success = true →
        v < (checkVersionAndSave store doc v).1.state.version ∧
        (getState (checkVersionAndSave store doc v).2).version
          = (getState store).version + 1) ∧
    (∀ reqs : List (AppState × Nat),
        (getState (runSubmits store reqs)).version
          = (getState store).version + countAccepted store reqs) := by
  refine ⟨checkVersionAndSave_reject store doc v,
          checkVersionAndSave_accept store doc v, ?_, fun reqs => runSubmits_version reqs store⟩
  intro hs
  by_cases hv : (getState store).version = v
  · rw [checkVersionAndSave_accept store doc v hv]
    exact ⟨Nat.lt_succ_self v, by rw [hv]; rfl⟩
  · rw [checkVersionAndSave_reject store doc v hv] at hs
    simp at hs

/-- Closed instance of `gate_submit_spec`: submitting `sampleDoc` at the
matching version 0 against an empty store is accepted with result version 1. -/
theorem gate_submit_spec_witness :
    checkVersionAndSave none sampleDoc 0
      = ({ success := true, state := { sampleDoc with version := 1 } },
          some { sampleDoc with version := 1 })
      ∧ 0 < (checkVersionAndSave none sampleDoc 0).1.state.version := by
  have h := gate_submit_spec none sampleDoc 0
  have hacc := h.2.1 rfl
  refine ⟨hacc, ?_⟩
  exact ((h.2.2.1) (by rw [hacc])).1

/-- **C2.** If clients A and B both read the document at version `V` and A's
write is accepted first (producing version `V + 1`), then B's write based on
`V` is rejected: the endpoint answers with status 409 whose body `state` is
exactly the stored document at version `V + 1`, and the rejected submission
does not write to the store. -/
theorem conflict_returns_authoritative (store : Option AppState)
    (docA docB : AppState) (V : Nat) (h : (getState store).version = V) :
    handlePut store docA V
      = (.success { docA with version := V + 1 } (V + 1),
          some { docA with version := V + 1 }) ∧
    handlePut (some { docA with version := V + 1 }) docB V
      = (.conflict { docA with version := V + 1 },
          some { docA with version := V + 1 }) ∧
    PutResponse.status (.conflict { docA with version := V + 1 }) = 409 := by
  have h1 := checkVersionAndSave_accept store docA V h
  have h2 := checkVersionAndSave_reject (some { docA with version := V + 1 }) docB V
    (by simp [getState])
  refine ⟨?_, ?_, rfl⟩
  · unfold handlePut
    rw [h1]
    simp
  · unfold handlePut
    rw [h2]
    simp [getState]

/-- Closed instance of `conflict_returns_authoritative` at version 0 with two
concrete competing writes. -/
theorem conflict_returns_authoritative_witness :
    handlePut none sampleDoc 0
      = (.success { sampleDoc with version := 1 } 1, some { sampleDoc with version := 1 }) ∧
    handlePut (some { sampleDoc with version := 1 }) defaultServerState 0
      = (.conflict { sampleDoc with version := 1 }, some { sampleDoc with version := 1 }) ∧
    PutResponse.status (.conflict { sampleDoc with version := 1 }) = 409 :=
  conflict_returns_authoritative none sampleDoc defaultServerState 0 rfl

/-- **C9.** With nothing stored (or an unreadable store, which the source
swallows into the same path), `getState` returns the hard-coded default
document with version 0; and the client's `ensureStateComplete` guarantees the
`settings` field of every loaded document is present, substituting the
hard-coded default settings when the field is absent. -/
theorem read_default_and_settings_repair :
    getState none = { recipes := [], calendar := [], settings := none, version := 0 } ∧
    (getState none).version = 0 ∧
    (∀ s : AppState, getState (some s) = s) ∧
    (∀ s : AppState,
        (ensureStateComplete s).settings = some (s.settings.getD defaultSettings)) ∧
    (∀ s : AppState, s.settings = none →
        (ensureStateComplete s).settings = some defaultSettings) ∧
    (∀ s : AppState, (ensureStateComplete s).settings ≠ none) := by
  refine ⟨rfl, rfl, fun s => rfl, fun s => rfl, ?_, ?_⟩
  · intro s hs
    simp [ensureStateComplete, hs]
  · intro s
    simp [ensureStateComplete]

/-- Closed instance of `read_default_and_settings_repair`: repairing the
settings-less server default yields the default settings. -/
theorem read_default_and_settings_repair_witness :
    defaultServerState.settings = none ∧
    (ensureStateComplete defaultServerState).settings = some defaultSettings :=
  ⟨rfl, (read_default_and_settings_repair.2.2.2.2.1) defaultServerState rfl⟩

/-! ## The client mutation queue (`saveWithRetry` in the `AppContext` provider)

Each `await api.saveState(...)` is modelled by consuming one entry of an
oracle list of `ApiResult`s; an empty oracle stands for a call that never
returns, in which case the invocation does not complete (`hung`). -/

/-- An operation the UI submits: a pure transform of the current document. -/
abbrev Op := AppState → AppState

/-- One observed reply of `api.saveState`: a 200 carrying the updated
document, an `ApiError` of status 409 carrying the authoritative document in
its body's `state` field, or any other (transport/network) error, which
`saveWithRetry` rethrows. -/
inductive ApiResult where
  | ok (state : AppState)
  | conflict (state : AppState)
  | netError
deriving Repr, DecidableEq

/-- How one `saveWithRetry` invocation ends: promise resolved `true`, resolved
`false` (retries exhausted), rejected (an error was rethrown), or — a model
artifact — an API call never returned, so the invocation never completed. -/
inductive SaveOutcome where
  | ok
  | failed
  | threw
  | hung
deriving Repr, DecidableEq

/-- The mutable client context the loops act on: the value last passed to
`setState` (the local document the UI reads), the contents of
`pendingOperationsRef`, and the toasts shown so far. -/
structure RunState where
  ui : AppState
  pending : List Op
  toasts : List String

/-- The toast shown when the retry budget is exhausted. -/
def saveFailedMsg : String := "Failed to save after multiple attempts. Please refresh."

/-- The pending-drain loop of `saveWithRetry`
(`while (pendingOperationsRef.current.length > 0)`): shift the front
operation, apply it to the current known document, set the optimistic state,
submit; on 200 adopt the (completed) server document and continue; on 409
adopt the authoritative document from the error body and `unshift` the
operation back to the front; on any other error rethrow. -/
def drainLoop : List ApiResult → AppState → RunState → SaveOutcome × AppState × RunState
  | responses, cur, rs =>
    match rs.pending with
    | [] => (.ok, cur, rs)
    | op :: rest =>
      let pendingNewState := op cur
      let rs1 : RunState := { rs with ui := pendingNewState, pending := rest }
      match responses with
      | [] => (.hung, cur, rs1)
      | resp :: more =>
        match resp with
        | .ok server =>
          let complete := ensureStateComplete server
          drainLoop more complete { rs1 with ui := complete }
        | .conflict auth =>
          let cur1 := ensureStateComplete auth
          drainLoop more cur1 { rs1 with ui := cur1, pending := op :: rs1.pending }
        | .netError => (.threw, cur, rs1)

/-- The bounded retry loop of `saveWithRetry` (`while (retries < maxRetries)`):
apply the operation, set the optimistic state, submit at the current known
version; on 200 adopt the server document and drain the pending queue; on 409
adopt the authoritative document and retry with the retry counter bumped; on
any other error rethrow.  Falling out of the loop shows the failure toast and
resolves `false`. -/
def retryLoop (op : Op) (maxRetries : Nat) :
    List ApiResult → Nat → AppState → RunState → SaveOutcome × AppState × RunState
  | responses, retries, cur, rs =>
    if retries < maxRetries then
      let newState := op cur
      let rs1 : RunState := { rs with ui := newState }
      match responses with
      | [] => (.hung, cur, rs1)
      | resp :: more =>
        match resp with
        | .ok server =>
          let complete := ensureStateComplete server
          drainLoop more complete { rs1 with ui := complete }
        | .conflict auth =>
          let cur1 := ensureStateComplete auth
          retryLoop op maxRetries more (retries + 1) cur1 { rs1 with ui := cur1 }
        | .netError => (.threw, cur, rs1)
    else
      (.failed, cur, { rs with toasts := rs.toasts ++ [saveFailedMsg] })

/-- The client context around an invocation: the local document, the
`saveInProgressRef` flag, the pending queue and the toasts. -/
structure QueueState where
  uiState : AppState
  saveInProgress : Bool
  pending : List Op
  toasts : List String

/-- `saveWithRetry` from the `AppContext` provider.  If a save is already in
flight the operation is pushed onto the pending queue and the promise resolves
`true` immediately.  Otherwise the in-flight flag is set, the retry loop runs
starting from the captured local document, and the `finally` clears the flag
on every path that completes — so after the call the flag is set only in the
model's `hung` case, where the API call never returned and the `finally` was
never reached. -/
def saveWithRetry (op : Op) (maxRetries : Nat) (qs : QueueState)
    (responses : List ApiResult) : SaveOutcome × QueueState :=
  if qs.saveInProgress then
    (.ok, { qs with pending := qs.pending ++ [op] })
  else
    let out := retryLoop op maxRetries responses 0 qs.uiState
      { ui := qs.uiState, pending := qs.pending, toasts := qs.toasts }
    (out.1,
      { uiState := out.2.2.ui
        saveInProgress := decide (out.1 = SaveOutcome.hung)
        pending := out.2.2.pending
        toasts := out.2.2.toasts })

/-- With an empty pending queue the drain loop exits immediately. -/
theorem drainLoop_nil_pending (responses : List ApiResult) (cur : AppState)
    (rs : RunState) (h : rs.pending = []) :
    drainLoop responses cur rs = (.ok, cur, rs) := by
  unfold drainLoop
  rw [h]

/-- Drain step on a 200: the front operation is consumed and the server's
(completed) document is adopted. -/
theorem drainLoop_ok (server : AppState) (more : List ApiResult) (cur : AppState)
    (rs : RunState) (op : Op) (rest : List Op) (h : rs.pending = op :: rest) :
    drainLoop (ApiResult.ok server :: more) cur rs
      = drainLoop more (ensureStateComplete server)
          { ui := ensureStateComplete server, pending := rest, toasts := rs.toasts } := by
  conv_lhs => unfold drainLoop
  rw [h]

/-- Drain step on a 409: the authoritative document is adopted and the front
operation is pushed back to the front of the queue — it is not dropped. -/
theorem drainLoop_conflict (auth : AppState) (more : List ApiResult) (cur : AppState)
    (rs : RunState) (op : Op) (rest : List Op) (h : rs.pending = op :: rest) :
    drainLoop (ApiResult.conflict auth :: more) cur rs
      = drainLoop more (ensureStateComplete auth)
          { ui := ensureStateComplete auth, pending := op :: rest, toasts := rs.toasts } := by
  conv_lhs => unfold drainLoop
  rw [h]

/-- Drain step on a transport error: the error is rethrown, with the UI still
showing the optimistic candidate of the failed submission. -/
theorem drainLoop_netError (more : List ApiResult) (cur : AppState)
    (rs : RunState) (op : Op) (rest : List Op) (h : rs.pending = op :: rest) :
    drainLoop (ApiResult.netError :: more) cur rs
      = (.threw, cur, { ui := op cur, pending := rest, toasts := rs.toasts }) := by
  unfold drainLoop
  rw [h]

/-- Retry step on a 200 (within budget): adopt the server document and move to
the drain loop. -/
theorem retryLoop_ok (op : Op) (maxRetries : Nat) (server : AppState)
    (more : List ApiResult) (retries : Nat) (cur : AppState) (rs : RunState)
    (h : retries < maxRetries) :
    retryLoop op maxRetries (ApiResult.ok server :: more) retries cur rs
      = drainLoop more (ensureStateComplete server)
          { ui := ensureStateComplete server, pending := rs.pending, toasts := rs.toasts } := by
  conv_lhs => unfold retryLoop
  rw [if_pos h]

/-- Retry step on a 409 (within budget): adopt the authoritative document and
retry the same operation with the counter bumped. -/
theorem retryLoop_conflict (op : Op) (maxRetries : Nat) (auth : AppState)
    (more : List ApiResult) (retries : Nat) (cur : AppState) (rs : RunState)
    (h : retries < maxRetries) :
    retryLoop op maxRetries (ApiResult.conflict auth :: more) retries cur rs
      = retryLoop op maxRetries more (retries + 1) (ensureStateComplete auth)
          { ui := ensureStateComplete auth, pending := rs.pending, toasts := rs.toasts } := by
  conv_lhs => unfold retryLoop
  rw [if_pos h]

/-- Retry step on a transport error (within budget): rethrow, with the UI
still showing the optimistic candidate. -/
theorem retryLoop_netError (op : Op) (maxRetries : Nat)
    (more : List ApiResult) (retries : Nat) (cur : AppState) (rs : RunState)
    (h : retries < maxRetries) :
    retryLoop op maxRetries (ApiResult.netError :: more) retries cur rs
      = (.threw, cur, { ui := op cur, pending := rs.pending, toasts := rs.toasts }) := by
  unfold retryLoop
  rw [if_pos h]

/-- With the oracle exhausted (within budget) the call never returns. -/
theorem retryLoop_hung (op : Op) (maxRetries : Nat) (retries : Nat)
    (cur : AppState) (rs : RunState) (h : retries < maxRetries) :
    retryLoop op maxRetries [] retries cur rs
      = (.hung, cur, { rs with ui := op cur }) := by
  unfold retryLoop
  rw [if_pos h]

/-- Out of budget: the failure toast is shown and the promise resolves
`false`; the local document is whatever was last adopted. -/
theorem retryLoop_exhausted (op : Op) (maxRetries : Nat)
    (responses : List ApiResult) (retries : Nat) (cur : AppState) (rs : RunState)
    (h : ¬ retries < maxRetries) :
    retryLoop op maxRetries responses retries cur rs
      = (.failed, cur, { rs with toasts := rs.toasts ++ [saveFailedMsg] }) := by
  unfold retryLoop
  rw [if_neg h]

/-- The drain loop never resolves `false`: exhausting the retry budget is a
feature of the outer retry loop only. -/
theorem drainLoop_ne_failed (responses : List ApiResult) :
    ∀ (cur : AppState) (rs : RunState),
      (drainLoop responses cur rs).1 ≠ SaveOutcome.failed := by
  induction responses with
  | nil =>
    intro cur rs
    rcases h : rs.pending with _ | ⟨op, rest⟩
    · rw [drainLoop_nil_pending _ _ _ h]
      simp
    · unfold drainLoop
      rw [h]
      simp
  | cons resp more ih =>
    intro cur rs
    rcases h : rs.pending with _ | ⟨op, rest⟩
    · rw [drainLoop_nil_pending _ _ _ h]
      simp
    · rcases resp with server | auth | _
      · rw [drainLoop_ok server more cur rs op rest h]
        apply ih
      · rw [drainLoop_conflict auth more cur rs op rest h]
        apply ih
      · rw [drainLoop_netError more cur rs op rest h]
        simp

/-- If the retry loop resolves `false`, either it was already out of budget
(then the UI is untouched) or the UI was last set to the completed
authoritative document of one of the 409 responses. -/
theorem retryLoop_failed_ui (op : Op) (maxRetries : Nat) (responses : List ApiResult) :
    ∀ (retries : Nat) (cur : AppState) (rs : RunState),
      (retryLoop op maxRetries responses retries cur rs).1 = SaveOutcome.failed →
      (maxRetries ≤ retries ∧
        (retryLoop op maxRetries responses retries cur rs).2.2.ui = rs.ui) ∨
      ∃ auth, ApiResult.conflict auth ∈ responses ∧
        (retryLoop op maxRetries responses retries cur rs).2.2.ui
          = ensureStateComplete auth := by
  induction responses with
  | nil =>
    intro retries cur rs h
    by_cases hr : retries < maxRetries
    · rw [retryLoop_hung op maxRetries retries cur rs hr] at h
      simp at h
    · left
      rw [retryLoop_exhausted op maxRetries [] retries cur rs hr]
      exact ⟨Nat.le_of_not_lt hr, rfl⟩
  | cons resp more ih =>
    intro retries cur rs h
    by_cases hr : retries < maxRetries
    · rcases resp with server | auth | _
      · rw [retryLoop_ok op maxRetries server more retries cur rs hr] at h
        exact absurd h (drainLoop_ne_failed more _ _)
      · rw [retryLoop_conflict op maxRetries auth more retries cur rs hr] at h ⊢
        rcases ih (retries + 1) (ensureStateComplete auth)
            { ui := ensureStateComplete auth, pending := rs.pending, toasts := rs.toasts } h
          with ⟨_, hui⟩ | ⟨a, hmem, hui⟩
        · right
          exact ⟨auth, by simp, hui⟩
        · right
          exact ⟨a, by simp [hmem], hui⟩
      · rw [retryLoop_netError op maxRetries more retries cur rs hr] at h
        simp at h
    · left
      rw [retryLoop_exhausted op maxRetries (resp :: more) retries cur rs hr]
      exact ⟨Nat.le_of_not_lt hr, rfl⟩

/-- `addRecipe` from the `AppContext` provider, as a queue operation:
append the recipe to the document's recipe list. -/
def addRecipeOp (recipe : Recipe) : Op := fun currentState =>
  { currentState with recipes := currentState.recipes ++ [recipe] }

/-- A second concrete recipe for closed instances. -/
def recipeB : Recipe :=
  { id := "r2", lastUsedAt := none, isFavorite := false, payload := "stew" }

/-- An idle client context holding `sampleDoc`. -/
def qsIdle : QueueState :=
  { uiState := sampleDoc, saveInProgress := false, pending := [], toasts := [] }

/-- **C4.** Every `saveWithRetry` invocation that starts a submission (no save
already in flight) leaves `saveInProgressRef` cleared once it completes —
whether it resolves `true`, resolves `false`, or rejects — so a later enqueue
is never permanently blocked.  (The model's `hung` outcome is an invocation
that never completed, which the claim excludes.) -/
theorem inflight_flag_clears (op : Op) (qs : QueueState) (responses : List ApiResult)
    (hstart : qs.saveInProgress = false)
    (hdone : (saveWithRetry op 3 qs responses).1 ≠ SaveOutcome.hung) :
    (saveWithRetry op 3 qs responses).2.saveInProgress = false := by
  unfold saveWithRetry at hdone ⊢
  rw [hstart] at hdone ⊢
  simp only [Bool.false_eq_true, if_false] at hdone ⊢
  simpa using hdone

/-- Closed instance of `inflight_flag_clears`: a rejected (transport-failure)
invocation still clears the in-flight flag. -/
theorem inflight_flag_clears_witness :
    (saveWithRetry (addRecipeOp recipeB) 3 qsIdle [ApiResult.netError]).2.saveInProgress
      = false :=
  inflight_flag_clears (addRecipeOp recipeB) qsIdle [ApiResult.netError] rfl (by decide)

/-- **C3 is false as stated**: a transport failure on the first submission
leaves the local document equal to the unconfirmed optimistic candidate
`addRecipeOp recipeB sampleDoc`, not the last confirmed document `sampleDoc`
(no server response ever confirmed anything in this run) — the non-409 error
is rethrown without any rollback `setState`. -/
theorem optimistic_state_left_on_transport_failure :
    (saveWithRetry (addRecipeOp recipeB) 3 qsIdle [ApiResult.netError]).1
        = SaveOutcome.threw ∧
    (saveWithRetry (addRecipeOp recipeB) 3 qsIdle [ApiResult.netError]).2.uiState
        = addRecipeOp recipeB sampleDoc ∧
    addRecipeOp recipeB sampleDoc ≠ sampleDoc := by
  refine ⟨?_, ?_, ?_⟩ <;> decide

/-- **C3 (amended).** When an invocation that started a submission resolves
`false` (the `maxRetries = 3` conflict budget is exhausted), the local
document is left equal to the completed authoritative document of one of the
server's 409 responses — a server-confirmed document, not the unconfirmed
optimistic candidate.  (On a transport failure the promise merely rejects; the
local document then remains the optimistic candidate, see the
counterexample.) -/
theorem exhausted_retries_roll_forward (op : Op) (qs : QueueState)
    (responses : List ApiResult) (hstart : qs.saveInProgress = false)
    (hfail : (saveWithRetry op 3 qs responses).1 = SaveOutcome.failed) :
    ∃ auth, ApiResult.conflict auth ∈ responses ∧
      (saveWithRetry op 3 qs responses).2.uiState = ensureStateComplete auth := by
  unfold saveWithRetry at hfail ⊢
  rw [hstart] at hfail ⊢
  simp only [Bool.false_eq_true, if_false] at hfail ⊢
  rcases retryLoop_failed_ui op 3 responses 0 qs.uiState
      { ui := qs.uiState, pending := qs.pending, toasts := qs.toasts } hfail
    with ⟨hle, _⟩ | ⟨auth, hmem, hui⟩
  · omega
  · exact ⟨auth, hmem, hui⟩

/-- Closed instance of `exhausted_retries_roll_forward`: three straight 409s
exhaust the budget and the local document ends as a completed authoritative
document from one of them. -/
theorem exhausted_retries_roll_forward_witness :
    ∃ auth,
      ApiResult.conflict auth ∈
        [ApiResult.conflict { sampleDoc with version := 1 },
         ApiResult.conflict { sampleDoc with version := 2 },
         ApiResult.conflict { sampleDoc with version := 3 }] ∧
      (saveWithRetry (addRecipeOp recipeB) 3 qsIdle
          [ApiResult.conflict { sampleDoc with version := 1 },
           ApiResult.conflict { sampleDoc with version := 2 },
           ApiResult.conflict { sampleDoc with version := 3 }]).2.uiState
        = ensureStateComplete auth :=
  exhausted_retries_roll_forward (addRecipeOp recipeB) qsIdle _ rfl (by decide)

/-- A fresh submission with two queued operations and three 200 responses:
the main operation is submitted, then the queue is drained front first — the
first 200 adopts `s0`, `A` is applied and its 200 adopts `s1`, then `B` and
`s2` — and the invocation resolves `true` with an empty queue. -/
theorem saveWithRetry_drains_two (O A B : Op) (ui : AppState) (ts : List String)
    (s0 s1 s2 : AppState) :
    saveWithRetry O 3 { uiState := ui, saveInProgress := false, pending := [A, B], toasts := ts }
        [ApiResult.ok s0, ApiResult.ok s1, ApiResult.ok s2]
      = (.ok, { uiState := ensureStateComplete s2, saveInProgress := false,
                pending := [], toasts := ts }) := by
  unfold saveWithRetry
  simp only [Bool.false_eq_true, if_false]
  rw [retryLoop_ok O 3 s0 _ 0 ui _ (by omega)]
  rw [drainLoop_ok s1 _ _ _ A [B] rfl]
  rw [drainLoop_ok s2 _ _ _ B [] rfl]
  rw [drainLoop_nil_pending _ _ _ rfl]
  rfl

/-- **C5.** Operations enqueued while a submission is in flight are appended
to the pending queue (and reported as accepted for later processing, not
rejected); once the in-flight submission is accepted the queue is drained in
FIFO order, each operation applied to the then-current known document, and a
drained operation that hits a 409 is pushed back to the front of the queue —
never dropped.  In the closed loop against the gate, with `A` and `B` queued
(in that order) behind an in-flight operation `O`, all three writes are
accepted in order: the versions go `+1`, `+2`, `+3`, and `B` is applied on top
of `A`'s accepted result. -/
theorem queue_fifo_drain (O A B : Op) (ui : AppState) (ts : List String)
    (store : Option AppState) (hv : (getState store).version = ui.version) :
    (∀ (qs : QueueState) (op2 : Op) (rs2 : List ApiResult),
        qs.saveInProgress = true →
        saveWithRetry op2 3 qs rs2
          = (.ok, { qs with pending := qs.pending ++ [op2] })) ∧
    (∀ (cur : AppState) (rs : RunState) (op2 : Op) (rest : List Op)
        (auth : AppState) (more : List ApiResult),
        rs.pending = op2 :: rest →
        drainLoop (ApiResult.conflict auth :: more) cur rs
          = drainLoop more (ensureStateComplete auth)
              { ui := ensureStateComplete auth, pending := op2 :: rest,
                toasts := rs.toasts }) ∧
    (∀ s0 c0 s1 c1 s2 c2 : AppState,
        s0 = { O ui with version := ui.version + 1 } →
        c0 = ensureStateComplete s0 →
        s1 = { A c0 with version := ui.version + 2 } →
        c1 = ensureStateComplete s1 →
        s2 = { B c1 with version := ui.version + 3 } →
        c2 = ensureStateComplete s2 →
        checkVersionAndSave store (O ui) ui.version
          = ({ success := true, state := s0 }, some s0) ∧
        checkVersionAndSave (some s0) (A c0) c0.version
          = ({ success := true, state := s1 }, some s1) ∧
        checkVersionAndSave (some s1) (B c1) c1.version
          = ({ success := true, state := s2 }, some s2) ∧
        saveWithRetry O 3
            { uiState := ui, saveInProgress := false, pending := [A, B], toasts := ts }
            [ApiResult.ok s0, ApiResult.ok s1, ApiResult.ok s2]
          = (.ok, { uiState := c2, saveInProgress := false, pending := [],
                    toasts := ts })) := by
  refine ⟨?_, ?_, ?_⟩
  · intro qs op2 rs2 h
    unfold saveWithRetry
    rw [h]
    simp
  · intro cur rs op2 rest auth more h
    exact drainLoop_conflict auth more cur rs op2 rest h
  · intro s0 c0 s1 c1 s2 c2 hs0 hc0 hs1 hc1 hs2 hc2
    subst hs0 hc0 hs1 hc1 hs2 hc2
    exact ⟨checkVersionAndSave_accept store (O ui) ui.version hv,
           checkVersionAndSave_accept _ _ _ rfl,
           checkVersionAndSave_accept _ _ _ rfl,
           saveWithRetry_drains_two O A B ui ts _ _ _⟩

/-- Closed instance of `queue_fifo_drain`: enqueueing while a save is in
flight appends the operation to the pending queue and resolves `true`. -/
theorem queue_fifo_drain_witness :
    saveWithRetry (addRecipeOp recipeB) 3
        { uiState := sampleDoc, saveInProgress := true, pending := [], toasts := [] } []
      = (.ok, { uiState := sampleDoc, saveInProgress := true,
                pending := [addRecipeOp recipeB], toasts := [] }) :=
  (queue_fifo_drain (addRecipeOp recipeB) (addRecipeOp recipeB) (addRecipeOp recipeB)
      sampleDoc [] none rfl).1
    { uiState := sampleDoc, saveInProgress := true, pending := [], toasts := [] }
    (addRecipeOp recipeB) [] rfl

/-! ## The remaining document operations of the `AppContext` provider -/

/-- JS truthiness of a nullable string: `null`/`undefined` and the empty
string are the falsy cases. -/
def jsTruthy : Option String → Bool
  | some s => s != ""
  | none => false

/-- JS `x || null` on a nullable string value. -/
def jsOrNull (x : Option String) : Option String :=
  if jsTruthy x then x else none

/-- `Array.prototype.findIndex`, with `none` standing for JS's `-1`. -/
def jsFindIndex {α : Type} (p : α → Bool) : List α → Option Nat
  | [] => none
  | x :: rest => if p x then some 0 else (jsFindIndex p rest).map (· + 1)

/-- `removeRecipe` from the `AppContext` provider: drop the recipe with the
given id from the recipe list and null out every calendar reference to it. -/
def removeRecipeOp (recipeId : String) : Op := fun currentState =>
  { currentState with
    recipes := currentState.recipes.filter (fun r => r.id != recipeId)
    calendar := currentState.calendar.map (fun day =>
      if day.recipeId = some recipeId then { day with recipeId := none } else day) }

/-- The "update or add dayN" block that `swapRecipes` performs once per date:
if the date already has an entry (at `findIndex`), overwrite it with the fresh
record `{ date, recipeId }` (no `groceriesPurchased` field); otherwise push
the fresh record. -/
def upsertDay (dte : String) (rid : Option String) (cal : List DayPlan) : List DayPlan :=
  match jsFindIndex (fun d => d.date == dte) cal with
  | some i => cal.set i { date := dte, recipeId := rid, groceriesPurchased := none }
  | none => cal ++ [{ date := dte, recipeId := rid, groceriesPurchased := none }]

/-- `swapRecipes` from the `AppContext` provider: read both dates' recipe
references (JS `day?.recipeId || null`), then update-or-add the record for
`date1` carrying `recipe2`, and then — on the already-updated calendar, as in
the source — the record for `date2` carrying `recipe1`. -/
def swapRecipesOp (date1 date2 : String) : Op := fun currentState =>
  let day1 := currentState.calendar.find? (fun d => d.date == date1)
  let day2 := currentState.calendar.find? (fun d => d.date == date2)
  let recipe1 := jsOrNull (day1.bind DayPlan.recipeId)
  let recipe2 := jsOrNull (day2.bind DayPlan.recipeId)
  let newCalendar1 := upsertDay date1 recipe2 currentState.calendar
  let newCalendar2 := upsertDay date2 recipe1 newCalendar1
  { currentState with calendar := newCalendar2 }

/-- `toggleGroceriesPurchased` from the `AppContext` provider: flip the flag
on the date's `DayPlan` (creating `{ date, recipeId: null,
groceriesPurchased: true }` when the date has no entry); when the flip
transitions to purchased and the day references a recipe, stamp that recipe's
`lastUsedAt` with the date in the same transform.  The inner `none` arm is
unreachable: `jsFindIndex` only returns in-range indices. -/
def toggleGroceriesPurchasedOp (date : String) : Op := fun currentState =>
  match jsFindIndex (fun d => d.date == date) currentState.calendar with
  | some existingDayIndex =>
    match currentState.calendar[existingDayIndex]? with
    | some day =>
      let wasNotPurchased := !(day.groceriesPurchased.getD false)
      let newCalendar := currentState.calendar.set existingDayIndex
        { day with groceriesPurchased := some wasNotPurchased }
      let newRecipes :=
        if wasNotPurchased && jsTruthy day.recipeId then
          currentState.recipes.map (fun r =>
            if some r.id = day.recipeId then { r with lastUsedAt := some date } else r)
        else currentState.recipes
      { currentState with calendar := newCalendar, recipes := newRecipes }
    | none => currentState
  | none =>
    { currentState with
      calendar := currentState.calendar
        ++ [{ date := date, recipeId := none, groceriesPurchased := some true }] }

/-! ### Lookup lemmas about `jsFindIndex`, `List.set` and `List.find?` -/

/-- Setting the found index to a value that still satisfies the predicate
makes it the `find?` result. -/
theorem find?_set_self {α : Type} (p : α → Bool) (v : α) (hv : p v = true) :
    ∀ (l : List α) (i : Nat), jsFindIndex p l = some i →
      (l.set i v).find? p = some v := by
  intro l
  induction l with
  | nil => intro i h; simp [jsFindIndex] at h
  | cons x rest ih =>
    intro i h
    unfold jsFindIndex at h
    by_cases hx : p x = true
    · rw [if_pos hx] at h
      obtain rfl : (0 : Nat) = i := Option.some.inj h
      rw [List.set_cons_zero]
      exact List.find?_cons_of_pos _ hv
    · rw [if_neg hx] at h
      cases m : jsFindIndex p rest with
      | none => rw [m] at h; simp at h
      | some j =>
        rw [m] at h
        simp only [Option.map_some'] at h
        obtain rfl : j + 1 = i := Option.some.inj h
        rw [List.set_cons_succ]
        rw [List.find?_cons_of_neg _ hx]
        exact ih j m

/-- Replacing the element found for `p` by a value that fails `q` leaves the
`find?` result for `q` unchanged, provided `p`-elements always fail `q`. -/
theorem find?_set_other {α : Type} (p q : α → Bool) (v : α)
    (hv : q v = false) (himp : ∀ w, p w = true → q w = false) :
    ∀ (l : List α) (i : Nat), jsFindIndex p l = some i →
      (l.set i v).find? q = l.find? q := by
  intro l
  induction l with
  | nil => intro i h; simp [jsFindIndex] at h
  | cons x rest ih =>
    intro i h
    unfold jsFindIndex at h
    by_cases hx : p x = true
    · rw [if_pos hx] at h
      obtain rfl : (0 : Nat) = i := Option.some.inj h
      rw [List.set_cons_zero]
      rw [List.find?_cons_of_neg _ (by simp [hv]),
          List.find?_cons_of_neg _ (by simp [himp x hx])]
    · rw [if_neg hx] at h
      cases m : jsFindIndex p rest with
      | none => rw [m] at h; simp at h
      | some j =>
        rw [m] at h
        simp only [Option.map_some'] at h
        obtain rfl : j + 1 = i := Option.some.inj h
        rw [List.set_cons_succ]
        by_cases hqx : q x = true
        · rw [List.find?_cons_of_pos _ hqx, List.find?_cons_of_pos _ hqx]
        · rw [List.find?_cons_of_neg _ hqx, List.find?_cons_of_neg _ hqx]
          exact ih j m

/-- `jsFindIndex` misses exactly when `find?` does. -/
theorem jsFindIndex_eq_none_iff {α : Type} (p : α → Bool) :
    ∀ l : List α, jsFindIndex p l = none ↔ l.find? p = none := by
  intro l
  induction l with
  | nil => simp [jsFindIndex]
  | cons x rest ih =>
    unfold jsFindIndex
    by_cases hx : p x = true
    · rw [if_pos hx]
      simp [List.find?_cons_of_pos _ hx]
    · rw [if_neg hx]
      rw [List.find?_cons_of_neg _ hx]
      simp [ih]

/-- The element at a `jsFindIndex` hit is the `find?` result and satisfies
the predicate. -/
theorem jsFindIndex_elem {α : Type} (p : α → Bool) :
    ∀ (l : List α) (i : Nat), jsFindIndex p l = some i →
      ∃ x, l[i]? = some x ∧ p x = true ∧ l.find? p = some x := by
  intro l
  induction l with
  | nil => intro i h; simp [jsFindIndex] at h
  | cons x rest ih =>
    intro i h
    unfold jsFindIndex at h
    by_cases hx : p x = true
    · rw [if_pos hx] at h
      obtain rfl : (0 : Nat) = i := Option.some.inj h
      exact ⟨x, by simp, hx, List.find?_cons_of_pos _ hx⟩
    · rw [if_neg hx] at h
      cases m : jsFindIndex p rest with
      | none => rw [m] at h; simp at h
      | some j =>
        rw [m] at h
        simp only [Option.map_some'] at h
        obtain rfl : j + 1 = i := Option.some.inj h
        obtain ⟨y, hy, hpy, hfy⟩ := ih j m
        exact ⟨y, by simpa using hy, hpy, by rw [List.find?_cons_of_neg _ hx]; exact hfy⟩

/-- Appending a match when nothing matched yet makes it the `find?` result. -/
theorem find?_append_self {α : Type} (p : α → Bool) (v : α) (hv : p v = true)
    (l : List α) (hnone : l.find? p = none) :
    (l ++ [v]).find? p = some v := by
  rw [List.find?_append, hnone, List.find?_cons_of_pos _ hv]
  rfl

/-- Appending a non-match leaves `find?` unchanged. -/
theorem find?_append_other {α : Type} (p : α → Bool) (v : α) (hv : p v = false)
    (l : List α) :
    (l ++ [v]).find? p = l.find? p := by
  rw [List.find?_append, List.find?_cons_of_neg _ (by simp [hv])]
  cases l.find? p <;> rfl

/-- A concrete document with one recipe assigned on the calendar. -/
def calendarDoc : AppState :=
  { recipes := [{ id := "r1", lastUsedAt := none, isFavorite := false, payload := "soup" }]
    calendar := [{ date := "2024-02-05", recipeId := some "r1", groceriesPurchased := none }]
    settings := some defaultSettings
    version := 5 }

/-- **C6.** `removeRecipe` leaves no recipe with the removed id and no
calendar reference to it: every `DayPlan` that pointed at the id now has
`recipeId` null, while all other recipes and `DayPlan`s survive unchanged
(the calendar keeps its length, the other fields are untouched). -/
theorem removeRecipe_referential_cleanup (s : AppState) (rid : String) :
    (∀ r ∈ (removeRecipeOp rid s).recipes, r.id ≠ rid) ∧
    (∀ day ∈ (removeRecipeOp rid s).calendar, day.recipeId ≠ some rid) ∧
    (∀ r ∈ s.recipes, r.id ≠ rid → r ∈ (removeRecipeOp rid s).recipes) ∧
    (∀ day ∈ s.calendar, day.recipeId ≠ some rid → day ∈ (removeRecipeOp rid s).calendar) ∧
    (∀ day ∈ s.calendar, day.recipeId = some rid →
        { day with recipeId := none } ∈ (removeRecipeOp rid s).calendar) ∧
    (removeRecipeOp rid s).calendar.length = s.calendar.length ∧
    (removeRecipeOp rid s).settings = s.settings ∧
    (removeRecipeOp rid s).version = s.version := by
  refine ⟨?_, ?_, ?_, ?_, ?_, ?_, rfl, rfl⟩
  · intro r hr
    simp only [removeRecipeOp, List.mem_filter] at hr
    simpa using hr.2
  · intro day hday
    simp only [removeRecipeOp, List.mem_map] at hday
    obtain ⟨w, _, rfl⟩ := hday
    by_cases hwid : w.recipeId = some rid
    · rw [if_pos hwid]
      simp
    · rw [if_neg hwid]
      exact hwid
  · intro r hr hne
    simp only [removeRecipeOp, List.mem_filter]
    exact ⟨hr, by simpa using hne⟩
  · intro day hday hne
    simp only [removeRecipeOp, List.mem_map]
    exact ⟨day, hday, by rw [if_neg hne]⟩
  · intro day hday heq
    simp only [removeRecipeOp, List.mem_map]
    exact ⟨day, hday, by rw [if_pos heq]⟩
  · simp [removeRecipeOp]

/-- Closed instance of `removeRecipe_referential_cleanup`: removing `"r1"`
from `calendarDoc` nulls the 2024-02-05 reference and drops the recipe. -/
theorem removeRecipe_referential_cleanup_witness :
    (⟨"2024-02-05", none, none⟩ : DayPlan) ∈ (removeRecipeOp "r1" calendarDoc).calendar ∧
    (removeRecipeOp "r1" calendarDoc).recipes = [] := by
  constructor
  · exact (removeRecipe_referential_cleanup calendarDoc "r1").2.2.2.2.1
      ⟨"2024-02-05", some "r1", none⟩ (by simp [calendarDoc]) rfl
  · decide

/-- After an upsert, the date is found with exactly the fresh record. -/
theorem upsertDay_find_self (dte : String) (rid : Option String) (cal : List DayPlan) :
    (upsertDay dte rid cal).find? (fun d => d.date == dte)
      = some ⟨dte, rid, none⟩ := by
  unfold upsertDay
  rcases h : jsFindIndex (fun d : DayPlan => d.date == dte) cal with _ | i <;>
    simp only [h]
  · exact find?_append_self _ _ (by simp) _ ((jsFindIndex_eq_none_iff _ _).mp h)
  · exact find?_set_self _ _ (by simp) _ i h

/-- An upsert for one date does not change what any other date finds. -/
theorem upsertDay_find_other (dte : String) (rid : Option String)
    (d' : String) (hne : d' ≠ dte) (cal : List DayPlan) :
    (upsertDay dte rid cal).find? (fun d => d.date == d')
      = cal.find? (fun d => d.date == d') := by
  have himp : ∀ w : DayPlan, (w.date == dte) = true → (w.date == d') = false := by
    intro w hw
    simp only [beq_iff_eq] at hw
    simp [hw, Ne.symm hne]
  unfold upsertDay
  rcases h : jsFindIndex (fun d : DayPlan => d.date == dte) cal with _ | i <;>
    simp only [h]
  · exact find?_append_other _ _ (by simp [Ne.symm hne]) _
  · exact find?_set_other _ _ _ (by simp [Ne.symm hne]) himp _ i h

/-- After the swap, looking up `date2` finds the freshly written record
carrying `date1`'s former reference (the second upsert is the last write, so
this needs no assumption on the dates). -/
theorem swapRecipesOp_find_date2 (date1 date2 : String) (s : AppState) :
    (swapRecipesOp date1 date2 s).calendar.find? (fun d => d.date == date2)
      = some ⟨date2,
          jsOrNull ((s.calendar.find? (fun d => d.date == date1)).bind DayPlan.recipeId),
          none⟩ := by
  simp only [swapRecipesOp]
  exact upsertDay_find_self date2 _ _

/-- After the swap, with distinct dates, looking up `date1` finds the record
written by the first upsert, carrying `date2`'s former reference. -/
theorem swapRecipesOp_find_date1 (date1 date2 : String) (hne : date1 ≠ date2)
    (s : AppState) :
    (swapRecipesOp date1 date2 s).calendar.find? (fun d => d.date == date1)
      = some ⟨date1,
          jsOrNull ((s.calendar.find? (fun d => d.date == date2)).bind DayPlan.recipeId),
          none⟩ := by
  simp only [swapRecipesOp]
  rw [upsertDay_find_other date2 _ date1 hne]
  exact upsertDay_find_self date1 _ _

/-- Dates other than the two swapped ones are looked up unchanged. -/
theorem swapRecipesOp_find_other (date1 date2 d' : String)
    (h1 : d' ≠ date1) (h2 : d' ≠ date2) (s : AppState) :
    (swapRecipesOp date1 date2 s).calendar.find? (fun d => d.date == d')
      = s.calendar.find? (fun d => d.date == d') := by
  simp only [swapRecipesOp]
  rw [upsertDay_find_other date2 _ d' h2, upsertDay_find_other date1 _ d' h1]

/-- **C7.** `swapRecipes(D1, D2)` is a single `Document → Document`
operation: it does not touch `version`, and one accepted gate submission
yields exactly one increment.  With distinct dates the resulting document has
D1 carrying D2's former `recipeId` and D2 carrying D1's (the JS-falsy cases —
absent day, null reference, empty-string id — all collapse to null, matching
`day?.recipeId || null`); in particular with both days present and carrying
nonempty ids the references are swapped literally, and a date with no entry
gets one created carrying the other date's reference. -/
theorem swapRecipes_atomic (s : AppState) (date1 date2 : String) (hne : date1 ≠ date2) :
    (swapRecipesOp date1 date2 s).version = s.version ∧
    (∀ store : Option AppState, (getState store).version = s.version →
        checkVersionAndSave store (swapRecipesOp date1 date2 s) s.version
          = ({ success := true,
               state := { swapRecipesOp date1 date2 s with version := s.version + 1 } },
              some { swapRecipesOp date1 date2 s with version := s.version + 1 })) ∧
    ((swapRecipesOp date1 date2 s).calendar.find? (fun d => d.date == date1)
        = some ⟨date1,
            jsOrNull ((s.calendar.find? (fun d => d.date == date2)).bind DayPlan.recipeId),
            none⟩) ∧
    ((swapRecipesOp date1 date2 s).calendar.find? (fun d => d.date == date2)
        = some ⟨date2,
            jsOrNull ((s.calendar.find? (fun d => d.date == date1)).bind DayPlan.recipeId),
            none⟩) ∧
    (∀ d1 d2 : DayPlan, ∀ rid1 rid2 : String,
        s.calendar.find? (fun d => d.date == date1) = some d1 →
        s.calendar.find? (fun d => d.date == date2) = some d2 →
        d1.recipeId = some rid1 → rid1 ≠ "" →
        d2.recipeId = some rid2 → rid2 ≠ "" →
        (swapRecipesOp date1 date2 s).calendar.find? (fun d => d.date == date1)
            = some ⟨date1, some rid2, none⟩ ∧
        (swapRecipesOp date1 date2 s).calendar.find? (fun d => d.date == date2)
            = some ⟨date2, some rid1, none⟩) := by
  refine ⟨rfl, ?_, swapRecipesOp_find_date1 date1 date2 hne s,
    swapRecipesOp_find_date2 date1 date2 s, ?_⟩
  · intro store hv
    exact checkVersionAndSave_accept store _ s.version hv
  · intro d1 d2 rid1 rid2 hf1 hf2 hr1 hr1ne hr2 hr2ne
    constructor
    · rw [swapRecipesOp_find_date1 date1 date2 hne s]
      simp [hf2, hr2, jsOrNull, jsTruthy, hr2ne]
    · rw [swapRecipesOp_find_date2 date1 date2 s]
      simp [hf1, hr1, jsOrNull, jsTruthy, hr1ne]

/-- A document with two assigned dates, both with purchased groceries. -/
def twoDayDoc : AppState :=
  { recipes :=
      [{ id := "r1", lastUsedAt := none, isFavorite := false, payload := "soup" },
       { id := "r2", lastUsedAt := none, isFavorite := false, payload := "stew" }]
    calendar :=
      [{ date := "2024-02-05", recipeId := some "r1", groceriesPurchased := some true },
       { date := "2024-02-06", recipeId := some "r2", groceriesPurchased := some true }]
    settings := some defaultSettings
    version := 7 }

/-- Closed instance of `swapRecipes_atomic`: the two concrete assignments of
`twoDayDoc` are swapped in one transform with no version change. -/
theorem swapRecipes_atomic_witness :
    (swapRecipesOp "2024-02-05" "2024-02-06" twoDayDoc).version = twoDayDoc.version ∧
    (swapRecipesOp "2024-02-05" "2024-02-06" twoDayDoc).calendar.find?
        (fun d => d.date == "2024-02-05")
      = some ⟨"2024-02-05", some "r2", none⟩ ∧
    (swapRecipesOp "2024-02-05" "2024-02-06" twoDayDoc).calendar.find?
        (fun d => d.date == "2024-02-06")
      = some ⟨"2024-02-06", some "r1", none⟩ := by
  have h := swapRecipes_atomic twoDayDoc "2024-02-05" "2024-02-06" (by decide)
  have hlit := h.2.2.2.2
    ⟨"2024-02-05", some "r1", some true⟩ ⟨"2024-02-06", some "r2", some true⟩
    "r1" "r2" (by decide) (by decide) rfl (by decide) rfl (by decide)
  exact ⟨h.1, hlit.1, hlit.2⟩

/-- **C10.** For every document and pair of dates, the swap replaces each
affected date's `DayPlan` with a record containing only `date` and `recipeId`
— any `groceriesPurchased` flag on either date is discarded (the fresh records
carry `none`) — while lookups for every other date, the recipe list, the
settings and the version are unchanged. -/
theorem swapRecipes_discards_purchased_flag (s : AppState) (date1 date2 : String) :
    (((swapRecipesOp date1 date2 s).calendar.find?
        (fun d => d.date == date1)).map DayPlan.groceriesPurchased = some none) ∧
    (((swapRecipesOp date1 date2 s).calendar.find?
        (fun d => d.date == date2)).map DayPlan.groceriesPurchased = some none) ∧
    (∀ d' : String, d' ≠ date1 → d' ≠ date2 →
        (swapRecipesOp date1 date2 s).calendar.find? (fun d => d.date == d')
          = s.calendar.find? (fun d => d.date == d')) ∧
    (swapRecipesOp date1 date2 s).recipes = s.recipes ∧
    (swapRecipesOp date1 date2 s).settings = s.settings ∧
    (swapRecipesOp date1 date2 s).version = s.version := by
  refine ⟨?_, ?_, ?_, rfl, rfl, rfl⟩
  · by_cases hne : date1 = date2
    · rw [hne, swapRecipesOp_find_date2 date2 date2 s]
      rfl
    · rw [swapRecipesOp_find_date1 date1 date2 hne s]
      rfl
  · rw [swapRecipesOp_find_date2 date1 date2 s]
    rfl
  · intro d' h1 h2
    exact swapRecipesOp_find_other date1 date2 d' h1 h2 s

/-- Closed instance of `swapRecipes_discards_purchased_flag`: both purchased
flags of `twoDayDoc` are dropped by the swap, and a third date is unaffected. -/
theorem swapRecipes_discards_purchased_flag_witness :
    ((swapRecipesOp "2024-02-05" "2024-02-06" twoDayDoc).calendar.find?
        (fun d => d.date == "2024-02-05")).map DayPlan.groceriesPurchased = some none ∧
    (swapRecipesOp "2024-02-05" "2024-02-06" twoDayDoc).calendar.find?
        (fun d => d.date == "2024-02-07")
      = twoDayDoc.calendar.find? (fun d => d.date == "2024-02-07") := by
  have h := swapRecipes_discards_purchased_flag twoDayDoc "2024-02-05" "2024-02-06"
  exact ⟨h.1, h.2.2.1 "2024-02-07" (by decide) (by decide)⟩

/-- **C8.** `toggleGroceriesPurchased(date)`: if the date has a `DayPlan`, its
`groceriesPurchased` flag is flipped (JS `!flag`, treating an absent flag as
false); when the flip transitions to purchased and the day references a
recipe (a JS-truthy `recipeId`), the same single transform stamps that
recipe's `lastUsedAt` with the date, and otherwise the recipe list is
untouched; if the date has no `DayPlan`, one is created with `recipeId` null
and `groceriesPurchased` true. -/
theorem toggleGroceriesPurchased_spec (s : AppState) (date : String) :
    (∀ day : DayPlan, s.calendar.find? (fun d => d.date == date) = some day →
        ((toggleGroceriesPurchasedOp date s).calendar.find? (fun d => d.date == date)
            = some { day with
                groceriesPurchased := some (!(day.groceriesPurchased.getD false)) }) ∧
        (day.groceriesPurchased.getD false = false →
          ∀ rid : String, day.recipeId = some rid → rid ≠ "" →
            (toggleGroceriesPurchasedOp date s).recipes
              = s.recipes.map (fun r =>
                  if some r.id = day.recipeId then { r with lastUsedAt := some date }
                  else r)) ∧
        (day.groceriesPurchased.getD false = true ∨ jsTruthy day.recipeId = false →
            (toggleGroceriesPurchasedOp date s).recipes = s.recipes)) ∧
    (s.calendar.find? (fun d => d.date == date) = none →
        (toggleGroceriesPurchasedOp date s).calendar
            = s.calendar ++ [⟨date, none, some true⟩] ∧
        (toggleGroceriesPurchasedOp date s).recipes = s.recipes) := by
  constructor
  · intro day hday
    cases hidx : jsFindIndex (fun d : DayPlan => d.date == date) s.calendar with
    | none =>
      rw [(jsFindIndex_eq_none_iff _ _).mp hidx] at hday
      exact absurd hday (by simp)
    | some i =>
      obtain ⟨x, hx, hpx, hfx⟩ := jsFindIndex_elem _ s.calendar i hidx
      rw [hday] at hfx
      obtain rfl : day = x := Option.some.inj hfx
      refine ⟨?_, ?_, ?_⟩
      · simp only [toggleGroceriesPurchasedOp, hidx, hx]
        exact find?_set_self _ _ (by simpa using hpx) _ i hidx
      · intro hwas rid hrid hridne
        simp only [toggleGroceriesPurchasedOp, hidx, hx, hwas, hrid,
          jsTruthy, Bool.not_false, Bool.true_and]
        rw [if_pos (by simpa using hridne)]
      · intro hcond
        rcases hcond with hwas | htr
        · simp only [toggleGroceriesPurchasedOp, hidx, hx, hwas, Bool.not_true,
            Bool.false_and, Bool.false_eq_true, if_false]
        · simp only [toggleGroceriesPurchasedOp, hidx, hx, htr, Bool.and_false,
            Bool.false_eq_true, if_false]
  · intro hnone
    have hidx := (jsFindIndex_eq_none_iff
      (fun d : DayPlan => d.date == date) s.calendar).mpr hnone
    constructor <;> simp only [toggleGroceriesPurchasedOp, hidx]

/-- Closed instance of `toggleGroceriesPurchased_spec`: marking 2024-02-05 of
`calendarDoc` as purchased flips the flag on and stamps recipe `"r1"`. -/
theorem toggleGroceriesPurchased_spec_witness :
    (toggleGroceriesPurchasedOp "2024-02-05" calendarDoc).calendar.find?
        (fun d => d.date == "2024-02-05")
      = some ⟨"2024-02-05", some "r1", some true⟩ ∧
    (toggleGroceriesPurchasedOp "2024-02-05" calendarDoc).recipes
      = [{ id := "r1", lastUsedAt := some "2024-02-05", isFavorite := false,
           payload := "soup" }] := by
  have h := (toggleGroceriesPurchased_spec calendarDoc "2024-02-05").1
    ⟨"2024-02-05", some "r1", none⟩ (by decide)
  refine ⟨h.1, ?_⟩
  rw [h.2.1 rfl "r1" rfl (by decide)]
  decide

end ChefDanaher
